import Mathlib

/-!
Verification of the MSON renderer (contrib/mson.py): a shallow embedding of
the structured-value data model, the text-descriptor parser
(eval_text_syntax), the property merger (inject_properties), the list/table
assemblers and the image side-channel (add_properties), together with
theorems settling the specification claims.

Python values produced by the renderer are modelled by `Value`:
strings are `Value.scalar`, Python lists are `Value.seq`, Python dicts are
`Value.map` (insertion-ordered association lists with string keys), and the
boolean `True` stored by the merger's flag branches is `Value.vtrue`.
Python exceptions are modelled by `Except PyErr`.  Recursive Python
functions are given an explicit fuel argument standing for the call stack
(Python raises RecursionError at its recursion limit); every theorem holds
for each sufficient fuel.
-/

namespace MSON

/-- Python exceptions that the translated code can raise. -/
inductive PyErr where
  | attributeError
  | typeError
  | indexError
  | keyError
  | unboundLocalError
  | recursionError
  deriving DecidableEq, Repr

/-- The structured values built by the renderer: Python str / list / dict,
plus the boolean `True` written by inject_properties' flag branches. -/
inductive Value where
  | scalar (s : String)
  | vtrue
  | seq (items : List Value)
  | map (entries : List (String × Value))

/-! ### Python dict operations (insertion-ordered association lists) -/

/-- `d[k]` lookup: first entry with the given key. -/
def dictLookup : List (String × Value) → String → Option Value
  | [], _ => none
  | (k, v) :: rest, key => if k = key then some v else dictLookup rest key

/-- `k in d`. -/
def dictContains (m : List (String × Value)) (k : String) : Bool :=
  (dictLookup m k).isSome

/-- `d[k] = v`: update in place (keeping the entry's position) or append. -/
def dictSet : List (String × Value) → String → Value → List (String × Value)
  | [], key, v => [(key, v)]
  | (k, w) :: rest, key, v =>
    if k = key then (k, v) :: rest else (k, w) :: dictSet rest key v

/-! ### Python string helpers (ASCII fragment) -/

/-- Python `\s` (ASCII): space, tab, newline, carriage return, vertical
tab, form feed. -/
def pyIsSpace (c : Char) : Bool :=
  c = ' ' || c = '\t' || c = '\n' || c = '\r' || c = '\x0b' || c = '\x0c'

/-- Python `\w` (ASCII fragment): letters, digits, underscore. -/
def pyIsWord (c : Char) : Bool :=
  c.isAlphanum || c = '_'

/-- Python `str.strip()` on the ASCII whitespace set. -/
def pyStrip (s : String) : String :=
  ⟨((s.toList.dropWhile pyIsSpace).reverse.dropWhile pyIsSpace).reverse⟩

/-- Python `str.lower()` (ASCII fragment). -/
def lowerStr (s : String) : String :=
  ⟨s.toList.map Char.toLower⟩

/-- Python `str.replace(pat, rep)`, non-overlapping, left to right.
The `Nat` argument is a skip counter so the recursion is structural:
while positive, the characters of an already-matched pattern occurrence
are being consumed. -/
def replaceGo (pat rep : List Char) : Nat → List Char → List Char
  | _, [] => []
  | Nat.succ k, _ :: rest => replaceGo pat rep k rest
  | 0, c :: rest =>
    if pat.isPrefixOf (c :: rest) && !pat.isEmpty then
      rep ++ replaceGo pat rep (pat.length - 1) rest
    else
      c :: replaceGo pat rep 0 rest

/-- Python `str.replace` wrapper on `String`. -/
def pyReplace (s pat rep : String) : String :=
  ⟨replaceGo pat.toList rep.toList 0 s.toList⟩

/-! ### External html module (spec §1: out of scope collaborator) -/

/-- `html.escape(s, quote=True)`: '&', '<', '>', '"' and the apostrophe are
replaced by entities, '&' first (CPython order). -/
def html_escape (s : String) : String :=
  pyReplace (pyReplace (pyReplace (pyReplace (pyReplace s
    "&" "&amp;") "<" "&lt;") ">" "&gt;") "\"" "&quot;") "\x27" "&#x27;"

/-- Modelled from the spec: `html.unescape` belongs to the external HTML
entity utilities declared out of scope (spec §1); it is modelled as the
identity, i.e. on the entity-free inputs exercised here. -/
def html_unescape (s : String) : String := s

/-- `escape_mson`: decode entities, re-encode, then rewrite the numeric
apostrophe entity back to a literal apostrophe (spec §6 sanitization
contract). -/
def escape_mson (raw : String) : String :=
  pyReplace (html_escape (html_unescape raw)) "&#x27;" "\x27"

/-! ### eval_text_syntax: the text-descriptor parser

The three regexes of the source are compiled to direct string functions:
* `type_pattern = .*\((.*)\)$`  — greedy: the group is the text strictly
  between the last '(' and a final ')'; `.` excludes newlines, so any
  newline in the string defeats the match.
* `key_pattern = ^(\w+).*` — matches iff the first character is a word
  character; the group is the maximal leading word run.
* `value_pattern = ^\w+\s*:(.+)(\(.*\))*$` — matches iff the first ':'
  appears right after the leading word run and optional whitespace and is
  followed by at least one character; the greedy `(.+)` always swallows
  the whole remainder (the starred paren group matches zero times), so the
  group is everything after that ':'.
-/

/-- Index (from the left) of the last occurrence of `c`, if any. -/
def lastIndexOf (c : Char) : List Char → Option Nat
  | [] => none
  | x :: xs =>
    match lastIndexOf c xs with
    | some i => some (i + 1)
    | none => if x = c then some 0 else none

/-- `type_pattern`: content of the trailing parenthesised group. -/
def matchTypePattern (text : String) : Option String :=
  let l := text.toList
  if l.contains '\n' then none
  else
    match l.reverse with
    | ')' :: revInit =>
      let initChars := revInit.reverse
      match lastIndexOf '(' initChars with
      | some i => some ⟨initChars.drop (i + 1)⟩
      | none => none
    | _ => none

/-- `value_pattern`: the text after the first ':' following the leading
word run and optional whitespace, if nonempty and newline-free. -/
def matchValuePattern (text : String) : Option String :=
  let l := text.toList
  let w := l.takeWhile pyIsWord
  if w.isEmpty then none
  else
    match (l.dropWhile pyIsWord).dropWhile pyIsSpace with
    | ':' :: rest =>
      if !rest.isEmpty && !rest.contains '\n' then some ⟨rest⟩ else none
    | _ => none

/-- `eval_text_syntax(text)`: returns `(key-or-text, value?, typeName?)`.
When the text does not start with a word character the whole (stripped)
text is returned in the first component with no value. -/
def eval_text (text : String) : String × Option String × Option String :=
  let text := pyStrip text
  let type_name := (matchTypePattern text).map pyStrip
  match text.toList with
  | [] => (text, none, type_name)
  | c :: _ =>
    if pyIsWord c then
      let key_name := pyStrip ⟨text.toList.takeWhile pyIsWord⟩
      let value_name := (matchValuePattern text).map pyStrip
      (key_name, value_name, type_name)
    else
      (text, none, type_name)

/-! ### Value classification (the isinstance checks of inject_properties) -/

/-- `isinstance(v, (str, int, float))` — `True` is an `int` in Python, so
`vtrue` is scalar-like. -/
def scalarLike : Value → Bool
  | .scalar _ => true
  | .vtrue => true
  | _ => false

/-- `isinstance(v, list)`. -/
def isSeq : Value → Bool
  | .seq _ => true
  | _ => false

/-- `isinstance(v, collections.Mapping)`. -/
def isMap : Value → Bool
  | .map _ => true
  | _ => false

/-- The items of a Python list value (empty for non-lists). -/
def seqItems : Value → List Value
  | .seq l => l
  | _ => []

/-- The entries of a Python dict value (empty for non-dicts). -/
def mapEntries : Value → List (String × Value)
  | .map m => m
  | _ => []

/-- `isinstance(target_value, str) and target_value[:1] == '#'`: the merge
suppression sentinel.  Only string targets are tested, and `[:1]` is safe
on the empty string. -/
def startsHash : Value → Bool
  | .scalar s =>
    match s.toList with
    | '#' :: _ => true
    | _ => false
  | _ => false

/-- Python equality between the scalar-like values that reach the
`source_value != target_value` comparison. -/
def scalarBeq : Value → Value → Bool
  | .scalar a, .scalar b => a = b
  | .vtrue, .vtrue => true
  | _, _ => false

/-- The dict key a scalar-like Python value hashes to.  In the one branch
that can store the boolean `True` as a key (`target[source_key][target_value]
= True` with a boolean target), Python would key the dict by `True`; keys
are modelled as strings, so it is rendered as `str(True) = "True"` (no
value produced by the renderer ever reaches that corner). -/
def pyKeyStr : Value → String
  | .scalar s => s
  | .vtrue => "True"
  | _ => ""

/-! ### inject_properties: the property merger

The faithful point of the embedding: Python argument rebinding
(`target = [source, target]`) is invisible to the caller, while in-place
mutation (`extend`, `append`, `target[k] = v`) is visible.  Each function
returns the caller-visible final value of the target object.  The `print`
diagnostics of the hash→list / list→hash branches are console side
effects, not modelled; those branches leave the target entry unchanged.
-/

/-- One iteration of inject_properties' loop over the source dict's
items, mutating the target dict and returning its caller-visible new
entries.  `inj` is the recursive merge call at one less stack depth.  The
branch structure mirrors the source line by line:
* a source key equal to `"name"` case-insensitively is skipped;
* an absent key is deep-copied in;
* a string target value starting with '#' suppresses the merge;
* scalar/scalar: unequal values are replaced by `[source, target]`;
* scalar/dict: `target_value.append(...)` raises AttributeError;
* scalar/list: `target_value[source_value] = True` raises TypeError
  (string index into a list);
* dict/scalar: deep copy of the source with the old scalar folded in as a
  `True`-valued flag entry;
* dict/dict: recursive merge (in-place, so the entry shows the result);
* dict/list and list/hash: diagnostic printed, entry unchanged;
* list/scalar: deep copy of the source with the old scalar appended;
* list/list: target extended with the source items. -/
def inject_step_value (inj : Value → Value → Except PyErr Value)
    (sk : String) (sv tv : Value) (tgt : List (String × Value)) :
    Except PyErr (List (String × Value)) :=
  if startsHash tv then .ok tgt
  else if scalarLike sv then
    if scalarLike tv then
      if scalarBeq sv tv then .ok tgt
      else .ok (dictSet tgt sk (.seq [sv, tv]))
    else if isMap tv then .error .attributeError
    else .error .typeError
  else if isMap sv then
    if scalarLike tv then
      .ok (dictSet tgt sk (.map (dictSet (mapEntries sv) (pyKeyStr tv) .vtrue)))
    else if isMap tv then do
      let tv' ← inj sv tv
      .ok (dictSet tgt sk tv')
    else .ok tgt
  else
    if scalarLike tv then .ok (dictSet tgt sk (.seq (seqItems sv ++ [tv])))
    else if isMap tv then .ok tgt
    else .ok (dictSet tgt sk (.seq (seqItems tv ++ seqItems sv)))

/-- The guards of one loop iteration before the shape dispatch: the
case-insensitive `"name"` skip, the absent-key deep copy, then the
dispatch on `target_value = target[source_key]`. -/
def inject_step (inj : Value → Value → Except PyErr Value)
    (sk : String) (sv : Value) (tgt : List (String × Value)) :
    Except PyErr (List (String × Value)) :=
  if lowerStr sk = "name" then .ok tgt
  else if !dictContains tgt sk then .ok (dictSet tgt sk sv)
  else inject_step_value inj sk sv ((dictLookup tgt sk).getD (.seq [])) tgt

/-- The `for source_key, source_value in source.items()` loop: fold
inject_step over the source entries in order; a raised exception aborts
the whole merge. -/
def inject_entries (inj : Value → Value → Except PyErr Value) :
    List (String × Value) → List (String × Value) →
    Except PyErr (List (String × Value))
  | [], tgt => .ok tgt
  | (sk, sv) :: rest, tgt => do
    let tgt' ← inject_step inj sk sv tgt
    inject_entries inj rest tgt'

/-- `inject_properties(source, target)` (fuelled).  The top-level shape
dispatch before the items loop:
* list/list: the target is extended in place;
* scalar/scalar: `target = [source, target]` rebinds the local parameter
  only — the caller's value is unchanged;
* scalar/list: the source is appended in place;
* otherwise `source.items()` is taken: a non-dict source raises
  AttributeError; a dict source iterated against a non-dict target
  raises TypeError at its first non-`"name"` key (string/list indexing),
  or returns with the target untouched if every key is skipped. -/
def inject_properties (fuel : Nat) (source target : Value) :
    Except PyErr Value :=
  match fuel with
  | 0 => .error .recursionError
  | fuel + 1 =>
    if isSeq source && isSeq target then
      .ok (.seq (seqItems target ++ seqItems source))
    else if scalarLike source && scalarLike target then
      .ok target
    else if scalarLike source && isSeq target then
      .ok (.seq (seqItems target ++ [source]))
    else
      match source with
      | .map es =>
        match target with
        | .map ts => do
          let ts' ← inject_entries (inject_properties fuel) es ts
          .ok (.map ts')
        | _ =>
          if es.all (fun kv => lowerStr kv.1 = "name") then .ok target
          else .error .typeError
      | _ => .error .attributeError

/-! ### add_properties and render_image (the image side channel) -/

/-- Python `type(x) == 'list'` compares a type object with the string
`'list'`: it is false for every `x`. -/
def type_equals_string (_v : Value) (_s : String) : Bool := false

/-- `add_properties(list, key, value)` on a mapping container: store the
value if the key is absent; then, because `type(list[key]) == 'list'` never
holds, wrap the current value in a fresh list; then append the value
again. -/
def add_properties (l : List (String × Value)) (key : String)
    (value : Value) : Except PyErr (List (String × Value)) :=
  let l1 := if !dictContains l key then dictSet l key value else l
  let cur := (dictLookup l1 key).getD (.seq [])
  let l2 := if !type_equals_string cur "list" then dictSet l1 key (.seq [cur]) else l1
  match dictLookup l2 key with
  | some (.seq xs) => .ok (dictSet l2 key (.seq (xs ++ [value])))
  | some _ => .error .attributeError
  | none => .error .keyError

/-- The `{'src': ..., 'title': ...}` dict built by render_image. -/
def image_value (src title : String) : Value :=
  .map [("src", .scalar src), ("title", .scalar (if title ≠ "" then title else ""))]

/-- `render_image`: build the image dict, push it onto the ambient
container under the key `'img'` via add_properties, and return it. -/
def render_image (container : List (String × Value)) (src title : String) :
    Except PyErr (Value × List (String × Value)) := do
  let image := image_value src title
  let c' ← add_properties container "img" image
  .ok (image, c')

/-! ### render_table: the table assembler

Modelled on the assembled rows: the optional header row (present when the
token has a `header` attribute) followed by the body rows, each an ordered
list of converted cell values. -/

/-- Python truthiness of a structured value. -/
def pyTruthy : Value → Bool
  | .scalar s => !s.isEmpty
  | .vtrue => true
  | .seq l => !l.isEmpty
  | .map m => !m.isEmpty

/-- The column loop `for col in range(len(rows[0])): obj[rows[0][col]] =
rows[row][col]`, read off in lockstep; a row shorter than the key row
raises IndexError, a non-hashable-scalar key raises TypeError. -/
def build_row_obj : List Value → List Value → List (String × Value) →
    Except PyErr (List (String × Value))
  | [], _, obj => .ok obj
  | hk :: hks, vs, obj =>
    match vs with
    | [] => .error .indexError
    | v :: vrest =>
      match hk with
      | .scalar s => build_row_obj hks vrest (dictSet obj s v)
      | .vtrue => build_row_obj hks vrest (dictSet obj "True" v)
      | _ => .error .typeError

/-- The array branch: one anonymous row object per row from index 1 on. -/
def build_array (row0 : List Value) : List (List Value) →
    Except PyErr (List Value)
  | [] => .ok []
  | row :: rows => do
    let obj ← build_row_obj row0 row []
    let rest ← build_array row0 rows
    .ok (.map obj :: rest)

/-- The hashmap branch: each row keyed by its own first cell, zipping the
header cells from column 1 on. -/
def build_hash (row0 : List Value) : List (List Value) →
    List (String × Value) → Except PyErr (List (String × Value))
  | [], acc => .ok acc
  | row :: rows, acc => do
    let obj ← build_row_obj (row0.drop 1) (row.drop 1) []
    match row.head? with
    | none => .error .indexError
    | some k =>
      match k with
      | .scalar s => build_hash row0 rows (dictSet acc s (.map obj))
      | .vtrue => build_hash row0 rows (dictSet acc "True" (.map obj))
      | _ => .error .typeError

/-- `render_table`: if the assembled row list is empty, or its first row
is empty, the local `all_inner` is never assigned and `return all_inner`
raises UnboundLocalError; a truthy top-left cell selects the array of
anonymous row objects, a falsy one the hashmap of named row objects. -/
def render_table (header : Option (List Value)) (body : List (List Value)) :
    Except PyErr Value :=
  let head_inner := match header with | some h => [h] | none => []
  let all_inner_values := head_inner ++ body
  match all_inner_values with
  | [] => .error .unboundLocalError
  | row0 :: rest =>
    match row0 with
    | [] => .error .unboundLocalError
    | c00 :: _ =>
      if pyTruthy c00 then do
        let objs ← build_array row0 rest
        .ok (.seq objs)
      else do
        let h ← build_hash row0 rest []
        .ok (.map h)

/-! ### The AST fragment the claims exercise -/

/-- Markdown AST nodes (mistletoe tokens) relevant to the claims.  The
`loose` flag of a list only feeds the `_suppress_ptag_stack`, which is
dead: render_list_item tests `self._suppress_ptag_stack[-1] or True`. -/
inductive Node where
  | rawText (content : String)
  | paragraph (children : List Node)
  | listItem (children : List Node)
  | list (start : Option Int) (loose : Bool) (children : List Node)

/-- `token.__class__.__name__`. -/
def Node.className : Node → String
  | .rawText _ => "RawText"
  | .paragraph _ => "Paragraph"
  | .listItem _ => "ListItem"
  | .list _ _ _ => "List"

/-- Class name of `token.children[0]` (empty for no children). -/
def classOfFirst (cs : List Node) : String :=
  match cs with
  | [] => ""
  | c :: _ => c.className

/-- Class name of `token.children[-1]` (empty for no children). -/
def classOfLast (cs : List Node) : String :=
  match cs.getLast? with
  | none => ""
  | some c => c.className

/-! ### transformMSON and the list-item pairing heuristic -/

/-- `transformMSON`: re-parse every raw string child; a descriptor with a
truthy value becomes the single-entry dict `{key: content}`, otherwise the
bare key string is kept. -/
def transformMSON (old_inner : List Value) : List Value :=
  old_inner.map fun old_in =>
    match old_in with
    | .scalar s =>
      let r := eval_text s
      match r.2.1 with
      | some content =>
        if content ≠ "" then .map [(r.1, .scalar content)] else .scalar r.1
      | none => .scalar r.1
    | v => v

/-- Python `len` of a structured value (`len(True)` would raise TypeError;
no `vtrue` ever reaches a `len` call here, 0 is returned for totality). -/
def pyLen : Value → Nat
  | .scalar s => s.length
  | .vtrue => 0
  | .seq l => l.length
  | .map m => m.length

/-- `{inner[i]: inner[j]}` on the current `inner`: indexing a dict by an
integer raises KeyError, an unhashable (list/dict) key raises TypeError. -/
def mkPair (v : Value) (i j : Nat) : Except PyErr Value :=
  match v with
  | .seq l =>
    match l.get? i, l.get? j with
    | some k, some w =>
      match k with
      | .scalar s => .ok (.map [(s, w)])
      | .vtrue => .ok (.map [("True", w)])
      | _ => .error .typeError
    | _, _ => .error .indexError
  | .map _ => .error .keyError
  | _ => .error .typeError

/-- The tail of render_list_item after the children are rendered:
transformMSON, the singleton collapse, then the four sequential pairing
checks.  Each check re-reads `len(inner)`, so once a check has replaced
`inner` by a single-entry dict the remaining checks are disabled. -/
def list_item_assemble (cs : List Node) (inner0 : List Value) :
    Except PyErr Value :=
  let inner := transformMSON inner0
  if inner.length = 1 then .ok (inner.headD (.seq []))
  else do
    let v0 := Value.seq inner
    let v1 ← if classOfFirst cs = "Paragraph" && pyLen v0 > 1 then
        mkPair v0 0 1 else .ok v0
    let v2 ← if classOfLast cs = "Paragraph" && pyLen v1 > 1 then
        mkPair v1 1 0 else .ok v1
    let v3 ← if classOfFirst cs = "List" && pyLen v2 > 1 then
        mkPair v2 0 1 else .ok v2
    let v4 ← if classOfLast cs = "List" && pyLen v3 > 1 then
        mkPair v3 1 0 else .ok v3
    .ok v4

/-! ### render_list: positional insertion and the assembly loop -/

/-- Python `list.insert(i, x)` with clamping (and negative indices counted
from the end). -/
def pyInsert (l : List Value) (i : Int) (x : Value) : List Value :=
  let n : Int := l.length
  let idx : Nat := (if i < 0 then max (n + i) 0 else min i n).toNat
  l.take idx ++ [x] ++ l.drop idx

/-- One source dict entry of a list item, folded into the accumulating
`(inner_array, inner_hash, we_found_an_item)` state: an `'item'` key
appends positionally; a known key is merged by inject_properties (the
hash entry is replaced by the caller-visible result of the merge); a new
key is inserted. -/
def list_entry_fold (inj : Value → Value → Except PyErr Value) :
    List (String × Value) → List Value → List (String × Value) → Bool →
    Except PyErr (List Value × List (String × Value) × Bool)
  | [], arr, hash, found => .ok (arr, hash, found)
  | (key, val) :: rest, arr, hash, found =>
    if key = "item" then
      list_entry_fold inj rest (arr ++ [val]) hash true
    else if dictContains hash key then do
      let merged ← inj val ((dictLookup hash key).getD (.seq []))
      list_entry_fold inj rest arr (dictSet hash key merged) found
    else
      list_entry_fold inj rest arr (dictSet hash key val) found

/-- The per-child loop of render_list's unordered branch: dict children
are folded entry by entry, every other child is appended to the array. -/
def list_loop (inj : Value → Value → Except PyErr Value) :
    List Value → List Value → List (String × Value) → Bool →
    Except PyErr (List Value × List (String × Value) × Bool)
  | [], arr, hash, found => .ok (arr, hash, found)
  | v :: rest, arr, hash, found =>
    match v with
    | .map entries => do
      let s ← list_entry_fold inj entries arr hash found
      list_loop inj rest s.1 s.2.1 s.2.2
    | _ => list_loop inj rest (arr ++ [v]) hash found

/-- The post-loop composition of render_list: transfer the hash into the
array when both are nonempty; collapse a one-element array when no
explicit `'item'` was seen; otherwise prefer the hash when nonempty. -/
def list_compose (arr : List Value) (hash : List (String × Value))
    (found : Bool) : Value :=
  if !arr.isEmpty && !hash.isEmpty then
    .seq (arr ++ hash.map fun kv => Value.map [kv])
  else if arr.length = 1 && !found then
    arr.headD (.seq [])
  else if !hash.isEmpty then
    .map hash
  else
    .seq arr

/-- `render_list` given the rendered children: a non-`None` start offset
(with `start == 1` mapped to 0) selects positional insertion at that fixed
index; otherwise the assembly loop plus composition run. -/
def render_list_values (inj : Value → Value → Except PyErr Value)
    (start0 : Option Int) (vs : List Value) : Except PyErr Value :=
  let start : Option Int :=
    match start0 with
    | some s => some (if s ≠ 1 then s else 0)
    | none => none
  match start with
  | some st => .ok (.seq (vs.foldl (fun acc v => pyInsert acc st v) []))
  | none => do
    let s ← list_loop inj vs [] [] false
    .ok (list_compose s.1 s.2.1 s.2.2)

/-! ### The dispatcher -/

/-- `render_inner`: render all children and collapse a one-element result
list to its element. -/
def collapse (vs : List Value) : Value :=
  match vs with
  | [v] => v
  | _ => .seq vs

/-- The tail of render_paragraph on the value of `render_inner`: when it
is a Python list, run eval_text_syntax on its first element (a non-string
first element raises AttributeError inside the parser, an empty list
raises IndexError); a truthy key yields `{key: [value] + rest}` or
`{key: rest}`; otherwise the rendered value is returned unchanged. -/
def paragraph_post (rendered : Value) : Except PyErr Value :=
  match rendered with
  | .seq vs =>
    match vs with
    | [] => .error .indexError
    | v0 :: rest =>
      match v0 with
      | .scalar s =>
        let r := eval_text s
        if r.1 ≠ "" then
          match r.2.1 with
          | some v =>
            if v ≠ "" then .ok (.map [(r.1, .seq (.scalar v :: rest))])
            else .ok (.map [(r.1, .seq rest)])
          | none => .ok (.map [(r.1, .seq rest)])
        else .ok (.seq (v0 :: rest))
      | _ => .error .attributeError
  | v => .ok v

/-- The dispatcher (`BaseRenderer.render`), structurally recursive on the
fuel so that concrete runs reduce definitionally; children are rendered in
order by a plain loop at one less depth. -/
def render (fuel : Nat) (node : Node) : Except PyErr Value :=
  match fuel with
  | 0 => .error .recursionError
  | fuel + 1 =>
    match node with
    | .rawText content => .ok (.scalar (escape_mson content))
    | .paragraph cs => do
      let vs ← cs.mapM (render fuel)
      paragraph_post (collapse vs)
    | .listItem cs =>
      if cs.length = 0 then .ok (.seq [])
      else do
        let inner ← cs.mapM (render fuel)
        list_item_assemble cs inner
    | .list start _loose cs => do
      let vs ← cs.mapM (render fuel)
      render_list_values (inject_properties fuel) start vs

/-! ### Dictionary lemmas -/

theorem dictLookup_dictSet_self (m : List (String × Value)) (k : String)
    (v : Value) : dictLookup (dictSet m k v) k = some v := by
  induction m with
  | nil => simp [dictSet, dictLookup]
  | cons hd tl ih =>
    obtain ⟨k', w⟩ := hd
    by_cases h : k' = k
    · simp [dictSet, dictLookup, h]
    · simp [dictSet, dictLookup, h, ih]

theorem dictLookup_dictSet_ne (m : List (String × Value)) (k k' : String)
    (v : Value) (h : k' ≠ k) :
    dictLookup (dictSet m k' v) k = dictLookup m k := by
  induction m with
  | nil => simp [dictSet, dictLookup, h]
  | cons hd tl ih =>
    obtain ⟨k'', w⟩ := hd
    by_cases h2 : k'' = k'
    · subst h2
      simp [dictSet, dictLookup, h]
    · simp [dictSet, dictLookup, h2, ih]

theorem dictSet_of_lookup_none (m : List (String × Value)) (k : String)
    (v : Value) (h : dictLookup m k = none) :
    dictSet m k v = m ++ [(k, v)] := by
  induction m with
  | nil => simp [dictSet]
  | cons hd tl ih =>
    obtain ⟨k', w⟩ := hd
    rw [dictLookup] at h
    by_cases h2 : k' = k
    · simp [h2] at h
    · rw [dictSet]
      simp only [h2, if_false] at h ⊢
      simp [ih h]

theorem dictLookup_append (l1 l2 : List (String × Value)) (k : String) :
    dictLookup (l1 ++ l2) k =
      ((dictLookup l1 k).orElse fun _ => dictLookup l2 k) := by
  induction l1 with
  | nil => simp [dictLookup]
  | cons hd tl ih =>
    obtain ⟨k', w⟩ := hd
    by_cases h : k' = k
    · simp [dictLookup, h]
    · simp [dictLookup, h, ih]

/-! ### Merge-loop invariants -/

/-- The shape dispatch writes at most the key it processes: the lookup of
any other key is untouched. -/
theorem inject_step_value_preserves_other
    (inj : Value → Value → Except PyErr Value) (sk : String) (sv tv : Value)
    (tgt tgt' : List (String × Value)) (k : String) (hne : sk ≠ k)
    (h : inject_step_value inj sk sv tv tgt = .ok tgt') :
    dictLookup tgt' k = dictLookup tgt k := by
  unfold inject_step_value at h
  repeat' split at h
  all_goals first
    | (cases h; rfl)
    | (cases h; exact dictLookup_dictSet_ne _ _ _ _ hne)
    | exact Except.noConfusion h
    | (cases hj : inj sv tv with
       | error e =>
         rw [hj] at h
         exact Except.noConfusion h
       | ok tv' =>
         rw [hj] at h
         have h2 : Except.ok (dictSet tgt sk tv') = Except.ok tgt' := h
         cases h2
         exact dictLookup_dictSet_ne _ _ _ _ hne)

/-- Every successful inject_step writes at most the key it processes: the
lookup of any other key is untouched. -/
theorem inject_step_preserves_other
    (inj : Value → Value → Except PyErr Value) (sk : String) (sv : Value)
    (tgt tgt' : List (String × Value)) (k : String) (hne : sk ≠ k)
    (h : inject_step inj sk sv tgt = .ok tgt') :
    dictLookup tgt' k = dictLookup tgt k := by
  unfold inject_step at h
  split at h
  · cases h; rfl
  · split at h
    · cases h; exact dictLookup_dictSet_ne _ _ _ _ hne
    · exact inject_step_value_preserves_other _ _ _ _ _ _ _ hne h

/-- A target entry holding a '#'-prefixed string scalar survives any
single successful inject_step unchanged. -/
theorem inject_step_preserves_hash
    (inj : Value → Value → Except PyErr Value) (sk : String) (sv : Value)
    (tgt tgt' : List (String × Value)) (k : String) (s : String)
    (hl : dictLookup tgt k = some (.scalar s))
    (hs : startsHash (.scalar s) = true)
    (h : inject_step inj sk sv tgt = .ok tgt') :
    dictLookup tgt' k = some (.scalar s) := by
  by_cases hne : sk = k
  · subst hne
    unfold inject_step at h
    by_cases hn : lowerStr sk = "name"
    · rw [if_pos hn] at h
      cases h
      exact hl
    · rw [if_neg hn] at h
      simp only [dictContains, hl, Option.isSome_some, Bool.not_true,
        Bool.false_eq_true, if_false, Option.getD_some] at h
      unfold inject_step_value at h
      rw [if_pos hs] at h
      cases h
      exact hl
  · rw [inject_step_preserves_other inj sk sv tgt tgt' k hne h]
    exact hl

/-- Invariant preservation along the whole merge loop. -/
theorem inject_entries_invariant
    (inj : Value → Value → Except PyErr Value)
    (P : List (String × Value) → Prop)
    (hstep : ∀ sk sv tgt tgt', P tgt →
      inject_step inj sk sv tgt = .ok tgt' → P tgt') :
    ∀ (es : List (String × Value)) (tgt ts' : List (String × Value)),
      P tgt → inject_entries inj es tgt = .ok ts' → P ts' := by
  intro es
  induction es with
  | nil =>
    intro tgt ts' hp h
    rw [inject_entries] at h
    cases h
    exact hp
  | cons hd rest ih =>
    obtain ⟨sk, sv⟩ := hd
    intro tgt ts' hp h
    rw [inject_entries] at h
    cases hstepv : inject_step inj sk sv tgt with
    | error e =>
      rw [hstepv] at h
      exact Except.noConfusion h
    | ok tgt2 =>
      rw [hstepv] at h
      have h2 : inject_entries inj rest tgt2 = .ok ts' := h
      exact ih tgt2 ts' (hstep sk sv tgt tgt2 hp hstepv) h2

/-- A `"name"`-keyed iteration leaves the target untouched. -/
theorem inject_step_name_skip
    (inj : Value → Value → Except PyErr Value) (sk : String) (sv : Value)
    (tgt tgt' : List (String × Value)) (hn : lowerStr sk = "name")
    (h : inject_step inj sk sv tgt = .ok tgt') : tgt' = tgt := by
  unfold inject_step at h
  rw [if_pos hn] at h
  cases h
  rfl

/-- Elimination form of a successful Mapping-into-Mapping merge: it runs
the entries loop at one less fuel and wraps the resulting dict. -/
theorem inject_properties_map_ok (fuel : Nat)
    (es ts : List (String × Value)) (v : Value)
    (h : inject_properties fuel (.map es) (.map ts) = .ok v) :
    ∃ (n : Nat) (ts' : List (String × Value)), fuel = n + 1 ∧ v = .map ts' ∧
      inject_entries (inject_properties n) es ts = .ok ts' := by
  cases fuel with
  | zero => exact Except.noConfusion h
  | succ n =>
    rw [inject_properties] at h
    simp only [isSeq, scalarLike, Bool.false_and, Bool.and_false,
      Bool.false_eq_true, if_false] at h
    cases hents : inject_entries (inject_properties n) es ts with
    | error e =>
      rw [hents] at h
      exact Except.noConfusion h
    | ok ts2 =>
      rw [hents] at h
      have h2 : Except.ok (Value.map ts2) = Except.ok v := h
      cases h2
      exact ⟨n, ts2, rfl, rfl, hents⟩

/-- C4: For every Mapping-into-Mapping merge and every key whose current
target value is a Scalar whose text begins with '#', the merge leaves that
key's value unchanged (the sentinel suppresses the copy). -/
theorem claim4_hash_sentinel (fuel : Nat)
    (es ts ts' : List (String × Value)) (k s : String)
    (hl : dictLookup ts k = some (.scalar s))
    (hs : startsHash (.scalar s) = true)
    (h : inject_properties fuel (.map es) (.map ts) = .ok (.map ts')) :
    dictLookup ts' k = some (.scalar s) := by
  obtain ⟨n, ts2, _, hv, hents⟩ := inject_properties_map_ok fuel es ts _ h
  injection hv with hveq
  subst hveq
  exact inject_entries_invariant (inject_properties n)
    (fun t => dictLookup t k = some (.scalar s))
    (fun sk sv t t' hp hstep =>
      inject_step_preserves_hash (inject_properties n) sk sv t t' k s hp hs hstep)
    es ts ts' hl hents

/-- C4 witness: merging `{"x": "1"}` into `{"x": "#locked"}` leaves `x`
as `"#locked"`. -/
theorem claim4_witness :
    dictLookup [("x", Value.scalar "#locked")] "x" = some (.scalar "#locked")
    ∧ startsHash (.scalar "#locked") = true
    ∧ inject_properties 1 (.map [("x", .scalar "1")])
        (.map [("x", .scalar "#locked")])
        = .ok (.map [("x", .scalar "#locked")])
    ∧ dictLookup [("x", Value.scalar "#locked")] "x" = some (.scalar "#locked") :=
  ⟨rfl, rfl, rfl,
    claim4_hash_sentinel 1 [("x", Value.scalar "1")]
      [("x", Value.scalar "#locked")] [("x", Value.scalar "#locked")]
      "x" "#locked" rfl rfl rfl⟩

/-- C5: For every Mapping-into-Mapping merge, source entries keyed
`"name"` case-insensitively are skipped, so the target's value under any
such key is unchanged by the merge. -/
theorem claim5_name_immune (fuel : Nat)
    (es ts ts' : List (String × Value)) (k : String)
    (hk : lowerStr k = "name")
    (h : inject_properties fuel (.map es) (.map ts) = .ok (.map ts')) :
    dictLookup ts' k = dictLookup ts k := by
  obtain ⟨n, ts2, _, hv, hents⟩ := inject_properties_map_ok fuel es ts _ h
  injection hv with hveq
  subst hveq
  exact inject_entries_invariant (inject_properties n)
    (fun t => dictLookup t k = dictLookup ts k)
    (fun sk sv t t' hp hstep => by
      have hp2 : dictLookup t k = dictLookup ts k := hp
      show dictLookup t' k = dictLookup ts k
      by_cases hne : sk = k
      · subst hne
        rw [inject_step_name_skip (inject_properties n) sk sv t t' hk hstep]
        exact hp2
      · rw [inject_step_preserves_other (inject_properties n) sk sv t t' k hne hstep]
        exact hp2)
    es ts ts' rfl hents

/-- C5 witness: merging `{"Name": "B", "x": "2"}` into `{"name": "A"}`
adds `x` but leaves `name` as `"A"`. -/
theorem claim5_witness :
    lowerStr "name" = "name"
    ∧ inject_properties 1 (.map [("Name", .scalar "B"), ("x", .scalar "2")])
        (.map [("name", .scalar "A")])
        = .ok (.map [("name", .scalar "A"), ("x", .scalar "2")])
    ∧ dictLookup [("name", Value.scalar "A"), ("x", Value.scalar "2")] "name"
        = dictLookup [("name", Value.scalar "A")] "name" :=
  ⟨rfl, rfl,
    claim5_name_immune 1 [("Name", Value.scalar "B"), ("x", Value.scalar "2")]
      [("name", Value.scalar "A")]
      [("name", Value.scalar "A"), ("x", Value.scalar "2")] "name" rfl rfl⟩

/-! ### Result discriminators (used to state disequalities of results) -/

/-- Whether a render result is a Python list. -/
def resultIsSeq : Except PyErr Value → Bool
  | .ok (.seq _) => true
  | _ => false

/-- The first key of a dict result, if any. -/
def resultFirstKey : Except PyErr Value → Option String
  | .ok (.map ((k, _) :: _)) => some k
  | _ => none

/-- Whether a dict result holds a Python list under the given key. -/
def resultKeyIsSeq (r : Except PyErr Value) (k : String) : Bool :=
  match r with
  | .ok (.map m) =>
    match dictLookup m k with
    | some (.seq _) => true
    | _ => false
  | _ => false

/-! ### The claims settled by direct evaluation -/

/-- C1: the claim predicts that assembling the list `"a: 1"`, `"a: 2"`,
`"b: 3"` yields `{"a": ["1","2"], "b": "3"}`; the code yields
`{"a": "1", "b": "3"}`: the Scalar/Scalar branch of the top-level
inject_properties call rebinds its local parameter
(`target = [source, target]`), which the calling list assembler never
observes, contradicting the function's own docstring. -/
theorem claim1_scalar_merge_lost :
    render 10 (.list none true
      [.listItem [.paragraph [.rawText "a: 1"]],
       .listItem [.paragraph [.rawText "a: 2"]],
       .listItem [.paragraph [.rawText "b: 3"]]])
      = .ok (.map [("a", .scalar "1"), ("b", .scalar "3")])
    ∧ render 10 (.list none true
      [.listItem [.paragraph [.rawText "a: 1"]],
       .listItem [.paragraph [.rawText "a: 2"]],
       .listItem [.paragraph [.rawText "b: 3"]]])
      ≠ .ok (.map [("a", .seq [.scalar "1", .scalar "2"]), ("b", .scalar "3")]) :=
  ⟨rfl, fun h => absurd (congrArg (resultKeyIsSeq · "a") h) (by decide)⟩

/-- C2: merging a Mapping whose shared key holds a Scalar into a Mapping
target whose value under that key is a Mapping raises AttributeError
(`dict` has no `append`); with a Sequence target value it raises
TypeError (list indexed by a string) — in both cases an exception
escapes instead of the diagnostic the claim describes. -/
theorem claim2_scalar_into_container_raises :
    inject_properties 2 (.map [("k", .scalar "s")])
      (.map [("k", .map [("a", .scalar "b")])]) = .error .attributeError
    ∧ inject_properties 2 (.map [("k", .scalar "s")])
      (.map [("k", .seq [.scalar "a"])]) = .error .typeError :=
  ⟨rfl, rfl⟩

/-- C8: on a table with no rows at all the local `all_inner` is never
assigned, so `return all_inner` raises UnboundLocalError instead of
returning the empty Sequence the claim describes. -/
theorem claim8_empty_table_crashes :
    render_table none [] = .error .unboundLocalError
    ∧ render_table none [] ≠ .ok (.seq []) :=
  ⟨rfl, fun h => absurd (congrArg resultIsSeq h) (by decide)⟩

/-! ### Counterexamples to the corrected claims -/

/-- C3 counterexample: a list item with three Paragraph children
`"x"`, `"y"`, `"z"` does not return the full sequence; the pairing
heuristic (whose guard is `len(inner) > 1`, not `n == 2`) fires and
returns `{"x": "y"}`, silently dropping `"z"`. -/
theorem claim3_counterexample :
    render 10 (.listItem [.paragraph [.rawText "x"],
      .paragraph [.rawText "y"], .paragraph [.rawText "z"]])
      = .ok (.map [("x", .scalar "y")])
    ∧ render 10 (.listItem [.paragraph [.rawText "x"],
      .paragraph [.rawText "y"], .paragraph [.rawText "z"]])
      ≠ .ok (.seq [.scalar "x", .scalar "y", .scalar "z"]) :=
  ⟨rfl, fun h => absurd (congrArg resultIsSeq h) (by decide)⟩

/-- C6 counterexample: a two-child item whose first child is a List
(collapsing to the scalar `"red"`) and whose last child is the Paragraph
`"Color"` returns `{V[1]: V[0]} = {"Color": "red"}`, not the claimed
`{V[0]: V[1]} = {"red": "Color"}`: the last-child-Paragraph check runs
before the first-child-List check. -/
theorem claim6_counterexample :
    render 10 (.listItem
      [.list none true [.listItem [.paragraph [.rawText "red"]]],
       .paragraph [.rawText "Color"]])
      = .ok (.map [("Color", .scalar "red")])
    ∧ render 10 (.listItem
      [.list none true [.listItem [.paragraph [.rawText "red"]]],
       .paragraph [.rawText "Color"]])
      ≠ .ok (.map [("red", .scalar "Color")]) :=
  ⟨rfl, fun h => absurd (congrArg resultFirstKey h) (by decide)⟩

/-- C7 counterexample: `"Color: red (enum)"` parses to typeName `"enum"`
but value `"red (enum)"`, not `"red"`: the greedy `(.+)` group of
`value_pattern` swallows the trailing parenthesised group, which is never
stripped from the value. -/
theorem claim7_counterexample :
    eval_text "Color: red (enum)" = ("Color", some "red (enum)", some "enum")
    ∧ (eval_text "Color: red (enum)").2.1 ≠ some "red" :=
  ⟨rfl, by decide⟩

/-! ### The table array branch builds zipped row objects -/

/-- With pairwise-distinct scalar header cells and a long-enough row, the
column loop produces exactly the zip of headers with the row's cells. -/
theorem build_row_obj_zip : ∀ (hs : List String) (r : List Value)
    (acc : List (String × Value)), hs.Nodup →
    (∀ k ∈ hs, dictLookup acc k = none) → hs.length ≤ r.length →
    build_row_obj (hs.map Value.scalar) r acc = .ok (acc ++ hs.zip r) := by
  intro hs
  induction hs with
  | nil =>
    intro r acc _ _ _
    simp [build_row_obj]
  | cons k ks ih =>
    intro r acc hnd hfresh hlen
    cases r with
    | nil => simp at hlen
    | cons v vs =>
      rw [List.map_cons, build_row_obj]
      rw [dictSet_of_lookup_none acc k v (hfresh k (by simp))]
      have hnd2 := List.nodup_cons.mp hnd
      have hfresh2 : ∀ k' ∈ ks, dictLookup (acc ++ [(k, v)]) k' = none := by
        intro k' hk'
        rw [dictLookup_append]
        have hne : ¬ k = k' := fun e => hnd2.1 (e ▸ hk')
        simp [hfresh k' (List.mem_cons_of_mem k hk'), dictLookup, hne]
      have hlen2 : ks.length ≤ vs.length := by
        simpa using hlen
      rw [ih vs (acc ++ [(k, v)]) hnd2.2 hfresh2 hlen2]
      simp [List.zip_cons_cons]

/-- The array branch returns one zipped row object per body row. -/
theorem build_array_zip (hs : List String) (rows : List (List Value))
    (hnd : hs.Nodup) (hlen : ∀ r ∈ rows, hs.length ≤ r.length) :
    build_array (hs.map Value.scalar) rows
      = .ok (rows.map fun r => Value.map (hs.zip r)) := by
  induction rows with
  | nil => simp [build_array]
  | cons r rs ih =>
    rw [build_array]
    rw [build_row_obj_zip hs r [] hnd (by intro k hk; rfl) (hlen r (by simp))]
    rw [ih (fun r2 h2 => hlen r2 (List.mem_cons_of_mem r h2))]
    rfl

/-- C9: For every table with a header of pairwise-distinct non-list cells
whose top-left cell is non-empty, and body rows at least as long as the
header, assembleTable returns the Sequence of Mappings zipping the header
cells with each body row's cells. -/
theorem claim9_table_row_objects (hs : List String) (body : List (List Value))
    (hnd : hs.Nodup)
    (htruthy : pyTruthy (.scalar (hs.headD "")) = true)
    (hlen : ∀ r ∈ body, hs.length ≤ r.length) :
    render_table (some (hs.map Value.scalar)) body
      = .ok (.seq (body.map fun r => Value.map (hs.zip r))) := by
  cases hs with
  | nil => exact absurd htruthy (by decide)
  | cons h0 hs' =>
    rw [render_table]
    simp only [List.map_cons, List.cons_append, List.nil_append]
    have ht2 : pyTruthy (.scalar h0) = true := htruthy
    rw [ht2]
    rw [show ((Value.scalar h0 :: hs'.map Value.scalar) = (h0 :: hs').map Value.scalar) from rfl]
    rw [build_array_zip (h0 :: hs') body hnd hlen]
    rfl

/-- C9 witness: header `["name","size"]`, body `[["a","1"],["b","2"]]`. -/
theorem claim9_witness :
    (["name", "size"] : List String).Nodup
    ∧ pyTruthy (.scalar ((["name", "size"] : List String).headD "")) = true
    ∧ (∀ r ∈ ([[Value.scalar "a", Value.scalar "1"],
        [Value.scalar "b", Value.scalar "2"]] : List (List Value)),
        (["name", "size"] : List String).length ≤ r.length)
    ∧ render_table (some [Value.scalar "name", Value.scalar "size"])
        [[Value.scalar "a", Value.scalar "1"], [Value.scalar "b", Value.scalar "2"]]
      = .ok (.seq [.map [("name", .scalar "a"), ("size", .scalar "1")],
                   .map [("name", .scalar "b"), ("size", .scalar "2")]]) :=
  ⟨by decide, rfl, by decide,
    claim9_table_row_objects ["name", "size"]
      [[Value.scalar "a", Value.scalar "1"], [Value.scalar "b", Value.scalar "2"]]
      (by decide) rfl (by decide)⟩

/-! ### The image side channel stores the image twice -/

/-- C10: rendering an Image when the ambient container has no `'img'`
entry leaves `'img'` mapped to the two-element list holding the image
value twice: the value is stored, wrapped in a fresh list (the check
`type(x) == 'list'` never holds), and appended again. -/
theorem claim10_image_duplicated (m : List (String × Value))
    (src title : String) (h : dictLookup m "img" = none) :
    ∃ m', render_image m src title = .ok (image_value src title, m')
      ∧ dictLookup m' "img"
          = some (.seq [image_value src title, image_value src title]) := by
  unfold render_image add_properties
  simp only [dictContains, h, Option.isSome_none, Bool.not_false, if_true,
    type_equals_string, dictLookup_dictSet_self, Option.getD_some]
  exact ⟨_, rfl, by rw [dictLookup_dictSet_self]; simp⟩

/-- C10 witness: an image rendered into the empty container. -/
theorem claim10_witness :
    dictLookup ([] : List (String × Value)) "img" = none
    ∧ ∃ m', render_image [] "u" "t" = .ok (image_value "u" "t", m')
      ∧ dictLookup m' "img"
          = some (.seq [image_value "u" "t", image_value "u" "t"]) :=
  ⟨rfl, claim10_image_duplicated [] "u" "t" rfl⟩

/-! ### The pairing heuristic, as amended -/

/-- Bind of a successful Except computation. -/
theorem except_bind_ok {α β : Type} (a : α) (f : α → Except PyErr β) :
    (Except.ok a >>= f) = f a := rfl

/-- With three or more transformed children whose first raw child is a
Paragraph, the pairing heuristic fires (its guard is `len(inner) > 1`)
and returns `{V[0]: V[1]}`, dropping the remaining children. -/
theorem list_item_assemble_first_paragraph (cs : List Node)
    (inner0 : List Value) (k : String) (w1 w2 : Value) (ws : List Value)
    (hfirst : classOfFirst cs = "Paragraph")
    (htrans : transformMSON inner0 = .scalar k :: w1 :: w2 :: ws) :
    list_item_assemble cs inner0 = .ok (.map [(k, w1)]) := by
  unfold list_item_assemble
  rw [htrans]
  simp only [List.length_cons]
  rw [if_neg (by omega)]
  rw [hfirst]
  simp [pyLen, mkPair, except_bind_ok]

/-- With exactly two transformed children, a first child of kind List and
a last child that is not a Paragraph, the first-child-List rule fires and
returns `{V[0]: V[1]}`. -/
theorem list_item_assemble_first_list (c0 c1 : Node) (inner0 : List Value)
    (k : String) (w1 : Value)
    (h0 : c0.className = "List")
    (h1 : c1.className ≠ "Paragraph")
    (htrans : transformMSON inner0 = [.scalar k, w1]) :
    list_item_assemble [c0, c1] inner0 = .ok (.map [(k, w1)]) := by
  unfold list_item_assemble
  rw [htrans]
  simp only [List.length_cons]
  rw [if_neg (by omega)]
  have hf : classOfFirst [c0, c1] = "List" := h0
  have hl : classOfLast [c0, c1] = c1.className := by
    simp [classOfLast]
  rw [hf, hl]
  simp [pyLen, mkPair, except_bind_ok, h1]

/-- C3 as amended: the pairing heuristic applies whenever the item has
`len(inner) > 1` transformed children (not only `n == 2`); an item with
three or more converted children whose first child is a Paragraph returns
the Mapping `{V[0]: V[1]}` and drops `V[2..n)`; the full ordered sequence
is returned only when no Paragraph/List cue matches. -/
theorem claim3_amended (n : Nat) (cs : List Node) (vs : List Value)
    (k : String) (w1 w2 : Value) (ws : List Value)
    (hfirst : classOfFirst cs = "Paragraph")
    (hrender : cs.mapM (render n) = .ok vs)
    (htrans : transformMSON vs = .scalar k :: w1 :: w2 :: ws) :
    render (n + 1) (.listItem cs) = .ok (.map [(k, w1)]) := by
  have hcs : ¬ cs.length = 0 := by
    intro e
    rw [List.length_eq_zero] at e
    subst e
    simp [classOfFirst] at hfirst
  show (if cs.length = 0 then Except.ok (Value.seq [])
        else do
          let inner ← cs.mapM (render n)
          list_item_assemble cs inner) = Except.ok (Value.map [(k, w1)])
  rw [if_neg hcs, hrender, except_bind_ok]
  exact list_item_assemble_first_paragraph cs vs k w1 w2 ws hfirst htrans

/-- C3 witness: a three-Paragraph item `"p"`, `"q"`, `"r"`. -/
theorem claim3_witness :
    classOfFirst [Node.paragraph [.rawText "p"], Node.paragraph [.rawText "q"],
        Node.paragraph [.rawText "r"]] = "Paragraph"
    ∧ ([Node.paragraph [.rawText "p"], Node.paragraph [.rawText "q"],
        Node.paragraph [.rawText "r"]].mapM (render 5))
        = .ok [.scalar "p", .scalar "q", .scalar "r"]
    ∧ transformMSON [.scalar "p", .scalar "q", .scalar "r"]
        = .scalar "p" :: .scalar "q" :: .scalar "r" :: []
    ∧ render 6 (.listItem [Node.paragraph [.rawText "p"],
        Node.paragraph [.rawText "q"], Node.paragraph [.rawText "r"]])
        = .ok (.map [("p", .scalar "q")]) :=
  ⟨rfl, rfl, rfl,
    claim3_amended 5
      [Node.paragraph [.rawText "p"], Node.paragraph [.rawText "q"],
       Node.paragraph [.rawText "r"]]
      [.scalar "p", .scalar "q", .scalar "r"]
      "p" (.scalar "q") (.scalar "r") [] rfl rfl rfl⟩

/-- C6 as amended: for a two-child item whose first child is a List the
result is `{V[0]: V[1]}` only when the last child is not a Paragraph;
when the last child is a Paragraph, the last-child-Paragraph rule runs
first and the result is `{V[1]: V[0]}` (the checks run in the order
first-Paragraph, last-Paragraph, first-List, last-List, and at most one
fires). -/
theorem claim6_amended (n : Nat) (c0 c1 : Node) (vs : List Value)
    (k : String) (w1 : Value)
    (h0 : c0.className = "List")
    (h1 : c1.className ≠ "Paragraph")
    (hrender : [c0, c1].mapM (render n) = .ok vs)
    (htrans : transformMSON vs = [.scalar k, w1]) :
    render (n + 1) (.listItem [c0, c1]) = .ok (.map [(k, w1)]) := by
  show (if [c0, c1].length = 0 then Except.ok (Value.seq [])
        else do
          let inner ← [c0, c1].mapM (render n)
          list_item_assemble [c0, c1] inner) = Except.ok (Value.map [(k, w1)])
  rw [if_neg (by simp), hrender, except_bind_ok]
  exact list_item_assemble_first_list c0 c1 vs k w1 h0 h1 htrans

/-- C6 witness: two single-item nested lists collapsing to the scalars
`"k0"` and `"v0"`. -/
theorem claim6_witness :
    (Node.list none true [.listItem [.paragraph [.rawText "k0"]]]).className = "List"
    ∧ (Node.list none true [.listItem [.paragraph [.rawText "v0"]]]).className ≠ "Paragraph"
    ∧ ([Node.list none true [.listItem [.paragraph [.rawText "k0"]]],
        Node.list none true [.listItem [.paragraph [.rawText "v0"]]]].mapM (render 5))
        = .ok [.scalar "k0", .scalar "v0"]
    ∧ transformMSON [.scalar "k0", .scalar "v0"] = [.scalar "k0", .scalar "v0"]
    ∧ render 6 (.listItem
        [Node.list none true [.listItem [.paragraph [.rawText "k0"]]],
         Node.list none true [.listItem [.paragraph [.rawText "v0"]]]])
        = .ok (.map [("k0", .scalar "v0")]) :=
  ⟨rfl, by simp [Node.className], rfl, rfl,
    claim6_amended 5
      (Node.list none true [.listItem [.paragraph [.rawText "k0"]]])
      (Node.list none true [.listItem [.paragraph [.rawText "v0"]]])
      [.scalar "k0", .scalar "v0"] "k0" (.scalar "v0")
      rfl (by simp [Node.className]) rfl rfl⟩

/-! ### The text-descriptor value, as amended -/

theorem str_toList_append (a b : String) :
    (a ++ b).toList = a.toList ++ b.toList := rfl

theorem takeWhile_append_stop {p : Char → Bool} :
    ∀ (l1 l2 : List Char), (∀ c ∈ l1, p c = true) →
    (∀ c, l2.head? = some c → p c = false) →
    (l1 ++ l2).takeWhile p = l1 := by
  intro l1
  induction l1 with
  | nil =>
    intro l2 _ h2
    cases l2 with
    | nil => rfl
    | cons c t =>
      simp [List.takeWhile, h2 c rfl]
  | cons c t ih =>
    intro l2 h1 h2
    simp [List.takeWhile, h1 c (by simp)]
    exact ih l2 (fun x hx => h1 x (by simp [hx])) h2

theorem dropWhile_append_stop {p : Char → Bool} :
    ∀ (l1 l2 : List Char), (∀ c ∈ l1, p c = true) →
    (∀ c, l2.head? = some c → p c = false) →
    (l1 ++ l2).dropWhile p = l2 := by
  intro l1
  induction l1 with
  | nil =>
    intro l2 _ h2
    cases l2 with
    | nil => rfl
    | cons c t =>
      simp [List.dropWhile, h2 c rfl]
  | cons c t ih =>
    intro l2 h1 h2
    simp [List.dropWhile, h1 c (by simp)]
    exact ih l2 (fun x hx => h1 x (by simp [hx])) h2

theorem space_not_word (c : Char) (h : pyIsSpace c = true) :
    pyIsWord c = false := by
  simp only [pyIsSpace, Bool.or_eq_true, decide_eq_true_eq] at h
  rcases h with ((((h | h) | h) | h) | h) | h <;> subst h <;> decide

/-- C7 as amended: on a (pre-stripped) input made of a leading word run,
optional whitespace, the first ':' and a nonempty newline-free remainder,
the parser's value is the whole remainder trimmed — any trailing
parenthesised group is included, not stripped (the greedy `(.+)` of
`value_pattern` swallows it). -/
theorem claim7_amended (w s rest : String)
    (hw1 : w.toList.isEmpty = false)
    (hw2 : ∀ c ∈ w.toList, pyIsWord c = true)
    (hsp : ∀ c ∈ s.toList, pyIsSpace c = true)
    (hr1 : rest.toList.isEmpty = false)
    (hr2 : rest.toList.contains '\n' = false)
    (hstrip : pyStrip (w ++ s ++ ":" ++ rest) = w ++ s ++ ":" ++ rest) :
    (eval_text (w ++ s ++ ":" ++ rest)).2.1 = some (pyStrip rest) := by
  obtain ⟨cw, tw, hw'⟩ : ∃ cw tw, w.toList = cw :: tw := by
    cases hq : w.toList with
    | nil => rw [hq] at hw1; exact absurd hw1 (by decide)
    | cons a b => exact ⟨a, b, rfl⟩
  have htl : (w ++ s ++ ":" ++ rest).toList
      = w.toList ++ (s.toList ++ ':' :: rest.toList) := by
    rw [str_toList_append, str_toList_append, str_toList_append]
    simp
  have hstop : ∀ c, (s.toList ++ ':' :: rest.toList).head? = some c →
      pyIsWord c = false := by
    intro c hc
    cases hq : s.toList with
    | nil =>
      rw [hq] at hc
      simp at hc
      subst hc
      decide
    | cons a b =>
      rw [hq] at hc
      simp at hc
      subst hc
      exact space_not_word a (hsp a (by rw [hq]; simp))
  have htake : (w ++ s ++ ":" ++ rest).toList.takeWhile pyIsWord = w.toList := by
    rw [htl]
    exact takeWhile_append_stop w.toList _ hw2 hstop
  have hdrop : (w ++ s ++ ":" ++ rest).toList.dropWhile pyIsWord
      = s.toList ++ ':' :: rest.toList := by
    rw [htl]
    exact dropWhile_append_stop w.toList _ hw2 hstop
  have hdrop2 : (s.toList ++ ':' :: rest.toList).dropWhile pyIsSpace
      = ':' :: rest.toList := by
    exact dropWhile_append_stop s.toList _ hsp
      (fun c hc => by simp at hc; subst hc; decide)
  have hcond : (!rest.toList.isEmpty && !rest.toList.contains '\n') = true := by
    rw [hr1, hr2]
    rfl
  have hmvp : matchValuePattern (w ++ s ++ ":" ++ rest) = some rest := by
    simp only [matchValuePattern]
    rw [htake, hw1, hdrop, hdrop2]
    show (if (!rest.toList.isEmpty && !rest.toList.contains '\n') = true
        then some ⟨rest.toList⟩ else none) = some rest
    rw [hcond]
    rfl
  have htl3 : (w ++ s ++ ":" ++ rest).toList
      = cw :: (tw ++ (s.toList ++ ':' :: rest.toList)) := by
    rw [htl, hw']
    simp
  have hcw : pyIsWord cw = true := hw2 cw (by rw [hw']; simp)
  simp only [eval_text]
  rw [hstrip, htl3]
  simp only [hcw, if_true, hmvp]
  rfl

/-- C7 witness: `"Color" ++ "" ++ ":" ++ " red (enum)"` parses to the
value `"red (enum)"`. -/
theorem claim7_witness :
    ("Color" : String).toList.isEmpty = false
    ∧ (∀ c ∈ ("Color" : String).toList, pyIsWord c = true)
    ∧ (∀ c ∈ ("" : String).toList, pyIsSpace c = true)
    ∧ (" red (enum)" : String).toList.isEmpty = false
    ∧ (" red (enum)" : String).toList.contains '\n' = false
    ∧ pyStrip ("Color" ++ "" ++ ":" ++ " red (enum)")
        = "Color" ++ "" ++ ":" ++ " red (enum)"
    ∧ (eval_text ("Color" ++ "" ++ ":" ++ " red (enum)")).2.1
        = some (pyStrip " red (enum)") :=
  ⟨rfl, by decide, by decide, rfl, by decide, by decide,
    claim7_amended "Color" "" " red (enum)" rfl (by decide) (by decide)
      rfl (by decide) (by decide)⟩

end MSON
